import Mathlib

/-!
Shallow embedding of the AI Study Companion backend (src/main.py) in Lean 4.

The pipeline under verification consists of:
* text extraction from PDFs with an OCR fallback (`extractText`, from the
  extraction block of `upload_pdf`),
* the document store `DOCUMENTS` (a Python dict, modelled as an
  insertion-ordered association list `Docs`),
* the conversation log `CHAT_HISTORY` (a list of role-tagged turns),
* the `/ask` handler `ask_ai` (intent routing, context assembly, system-turn
  upsert, user append, trim, completion call, assistant append),
* the `/upload`, `/clear`, `/clear-all` and `/delete` handlers.

External collaborators (the PDF parser, the rasterizer, the OCR engine and the
chat-completion service) are modelled by their observable outcomes: a
`PDFModel` records what direct extraction and OCR would yield for a given
file, and the completion service is a per-request `Except String String`
outcome (error message or reply text).

Python strings are modelled as Lean `String` (lists of characters); `lower`,
slicing, `strip`-falsyness, `in` and `urllib.parse.quote` are given explicit
character-level models below.
-/

namespace StudyCompanion

/-- Roles of conversation turns, as used in the `CHAT_HISTORY` dicts. -/
inductive Role
  | system
  | user
  | assistant
deriving DecidableEq

/-- One entry of `CHAT_HISTORY`: a role together with its content string. -/
structure Turn where
  role : Role
  content : String
deriving DecidableEq

/-- Model of Python `str.lower()` (ASCII case folding, per character). -/
def pyLower (s : String) : String := ⟨s.data.map Char.toLower⟩

/-- Model of Python slicing `s[:n]`: the first `n` characters of `s`. -/
def pyTake (s : String) (n : Nat) : String := ⟨s.data.take n⟩

/-- Model of Python `not s.strip()`: `s` is empty or consists of whitespace only. -/
def strFalsyStrip (s : String) : Bool := s.data.all Char.isWhitespace

/-- Boolean test that `needle` is a prefix of `hay` (character lists). -/
def isPrefixB : List Char → List Char → Bool
  | [], _ => true
  | _ :: _, [] => false
  | a :: as, b :: bs => a == b && isPrefixB as bs

/-- Boolean test that `needle` occurs as a contiguous substring of `hay`;
models Python `needle in hay` on strings. -/
def substrB (needle : List Char) : List Char → Bool
  | [] => needle.isEmpty
  | b :: bs => isPrefixB needle (b :: bs) || substrB needle bs

/-- Model of Python `hay.endswith(needle)`. -/
def isSuffixB (needle hay : List Char) : Bool :=
  isPrefixB needle.reverse hay.reverse

/-- The document store `DOCUMENTS`: a Python dict from lowercased filename to
extracted text, modelled as an insertion-ordered association list. -/
abbrev Docs := List (String × String)

/-- Model of `DOCUMENTS[k] = v` on a Python dict: overwrite in place if the key
exists (keeping its position, as Python dicts do), else append at the end. -/
def docsPut (d : Docs) (k v : String) : Docs :=
  if d.any (fun p => p.1 == k) then
    d.map (fun p => if p.1 == k then (k, v) else p)
  else
    d ++ [(k, v)]

/-- Model of `del DOCUMENTS[k]`. -/
def docsRemove (d : Docs) (k : String) : Docs :=
  d.filter (fun p => p.1 != k)

/-- Model of `DOCUMENTS.values()` in iteration (insertion) order. -/
def docsValues (d : Docs) : List String := d.map Prod.snd

/-- The combined study material of `ask_ai` (src/main.py lines 157-160):
`"\n\n".join(DOCUMENTS.values())[:12000]` when the store is non-empty,
the empty string otherwise. -/
def combinedText (d : Docs) : String :=
  if d.isEmpty then "" else pyTake (String.intercalate "\n\n" (docsValues d)) 12000

/-- The fixed keyword list `image_keywords` of `ask_ai` (src/main.py line 163). -/
def imageKeywords : List String :=
  ["draw", "generate image", "create diagram", "create flowchart",
   "show diagram", "make flowchart"]

/-- Intent of a question: explicit image-generation request, or a question to
be answered from context. -/
inductive Intent
  | Image
  | Answer
deriving DecidableEq

/-- The intent classification performed inline in `ask_ai` (src/main.py
lines 155, 163-164): lowercase the question and test each keyword for
substring occurrence. -/
def classify (q : String) : Intent :=
  if imageKeywords.any (fun k => substrB k.data (pyLower q).data) then
    Intent.Image
  else
    Intent.Answer

/-- Uppercase hexadecimal digit for `n < 16`. -/
def hexDigit (n : Nat) : Char :=
  if n < 10 then Char.ofNat (48 + n) else Char.ofNat (55 + n)

/-- Percent-encoding of one byte, `%XX` with uppercase hex. -/
def pctByte (b : Nat) : List Char :=
  ['%', hexDigit (b / 16), hexDigit (b % 16)]

/-- UTF-8 encoding of a character as a list of byte values. -/
def utf8Bytes (c : Char) : List Nat :=
  let n := c.toNat
  if n < 128 then [n]
  else if n < 2048 then [192 + n / 64, 128 + n % 64]
  else if n < 65536 then [224 + n / 4096, 128 + (n / 64) % 64, 128 + n % 64]
  else [240 + n / 262144, 128 + (n / 4096) % 64, 128 + (n / 64) % 64, 128 + n % 64]

/-- Characters that `urllib.parse.quote` leaves unescaped with its default
`safe="/"`: ASCII alphanumerics, `_.-~` and `/`. -/
def quoteSafeChar (c : Char) : Bool :=
  (97 ≤ c.toNat && c.toNat ≤ 122) || (65 ≤ c.toNat && c.toNat ≤ 90) ||
  (48 ≤ c.toNat && c.toNat ≤ 57) ||
  c == '_' || c == '.' || c == '-' || c == '~' || c == '/'

/-- Model of `urllib.parse.quote(s)`: safe characters pass through, every
other character is percent-encoded byte by byte (UTF-8). -/
def pyQuote (s : String) : String :=
  ⟨s.data.foldr
    (fun c acc =>
      (if quoteSafeChar c then [c]
       else (utf8Bytes c).foldr (fun b acc2 => pctByte b ++ acc2) []) ++ acc)
    []⟩

/-- The system prompt assembled by `ask_ai` (src/main.py lines 168-183): the
fixed instruction block with the combined study material interpolated. -/
def systemPrompt (combined : String) : String :=
  "\n        You are a smart, confident AI Study Companion.\n\n        Rules:\n        - If the question relates to uploaded files, use the Study Material below.\n        - If the question is general knowledge, answer confidently.\n        - Do NOT say you are a language model.\n        - Do NOT say you lack information unless absolutely necessary.\n        - If unsure, give the most likely explanation based on available knowledge.\n        - Speak naturally like a helpful assistant.\n        - When user asks who created you, reply with: \"I was created by a team known as B5. B5 is a group of 4 students who created me as a project for their AI real time project.\"\n        - Always be aware of the uploaded study material and reference it when relevant.\n\n        Study Material:\n        " ++ combined ++ "\n        "

/-- The system-turn update of `ask_ai` (src/main.py lines 186-189): append a
system turn when the log is empty, otherwise overwrite position 0. -/
def upsertSystem (h : List Turn) (p : String) : List Turn :=
  match h with
  | [] => [⟨Role.system, p⟩]
  | _ :: t => ⟨Role.system, p⟩ :: t

/-- Model of Python `h[-n:]`: the last `n` elements (the whole list when it is
shorter than `n`). -/
def lastN (h : List Turn) (n : Nat) : List Turn := h.drop (h.length - n)

/-- The history trim of `ask_ai` (src/main.py lines 195-196):
`if len(CHAT_HISTORY) > 21: CHAT_HISTORY = [CHAT_HISTORY[0]] + CHAT_HISTORY[-20:]`. -/
def trimHist (h : List Turn) : List Turn :=
  if 21 < h.length then h.take 1 ++ lastN h 20 else h

/-- Result of a `/ask` request: an image URL or an answer text. -/
inductive AskResult
  | image (url : String)
  | answer (text : String)
deriving DecidableEq

/-- The process-wide mutable state owned by the pipeline: `DOCUMENTS` and
`CHAT_HISTORY`. -/
structure AskState where
  docs : Docs
  hist : List Turn
deriving DecidableEq

/-- The `/ask` handler `ask_ai` (src/main.py lines 150-211). The external
completion service is modelled by `reply`, the outcome it would produce for
this request: `Except.ok` a reply text, or `Except.error` an exception
message. Returns the response together with the new state. -/
def askAi (q : String) (reply : Except String String) (s : AskState) :
    AskResult × AskState :=
  let combined := combinedText s.docs
  if classify q = Intent.Image then
    (AskResult.image ("https://image.pollinations.ai/prompt/" ++ pyQuote q), s)
  else
    let h1 := upsertSystem s.hist (systemPrompt combined)
    let h2 := h1 ++ [⟨Role.user, q⟩]
    let h3 := trimHist h2
    match reply with
    | Except.ok ans => (AskResult.answer ans, ⟨s.docs, h3 ++ [⟨Role.assistant, ans⟩]⟩)
    | Except.error e => (AskResult.answer ("⚠️ Error: " ++ e), ⟨s.docs, h3⟩)

/-- Observable behaviour of one uploaded PDF file, as seen through the
collaborators used by `upload_pdf`:
* `directPages`: what `page.extract_text()` returns for each page
  (`none` models Python `None`, `some ""` an empty extraction);
* `directFailAt`: `some k` if the direct-extraction path raises after `k`
  pages were processed (`some 0`: `PdfReader` itself fails), `none` if it
  does not raise;
* `ocrPages`: `some texts` if rasterization plus OCR would succeed with the
  given per-page texts, `none` if the OCR path raises. -/
structure PDFModel where
  directPages : List (Option String)
  directFailAt : Option Nat
  ocrPages : Option (List String)
deriving DecidableEq

/-- The direct-extraction result accumulated by `upload_pdf` (src/main.py
lines 115-125): concatenate each truthy page text followed by a newline,
stopping at the point where the parser raises (the exception is swallowed and
the text accumulated so far is kept). -/
def directText (m : PDFModel) : String :=
  let pages :=
    match m.directFailAt with
    | some k => m.directPages.take k
    | none => m.directPages
  pages.foldl
    (fun acc p =>
      match p with
      | some s => if s.isEmpty then acc else acc ++ s ++ "\n"
      | none => acc)
    ""

/-- Outcome of the extraction block of `upload_pdf` for one file. -/
inductive ExtractOut
  | ok (text : String)
  | ocrFailed
deriving DecidableEq

/-- The extraction block of `upload_pdf` (src/main.py lines 115-134): direct
extraction first; if its result is falsy after `strip()`, the OCR fallback
appends each page's recognized text, and an OCR exception yields the
`ocrFailed` outcome. The second component records whether the OCR path was
entered. -/
def extractText (m : PDFModel) : ExtractOut × Bool :=
  let t := directText m
  if strFalsyStrip t then
    match m.ocrPages with
    | some ps => (ExtractOut.ok (t ++ String.join ps), true)
    | none => (ExtractOut.ocrFailed, true)
  else
    (ExtractOut.ok t, false)

/-- `MAX_FILE_SIZE` (src/main.py line 38). -/
def maxFileSize : Nat := 10 * 1024 * 1024

/-- One file of an upload batch: its filename, its byte size, and the
observable behaviour of the PDF collaborators on it. -/
structure FileModel where
  filename : String
  size : Nat
  pdf : PDFModel
deriving DecidableEq

/-- The per-file loop of `upload_pdf` (src/main.py lines 96-138). An
`Except.error` models the early `return` statements inside the loop (carrying
the response message and the store as mutated so far); `Except.ok` is normal
loop completion with the final store and the processed count. -/
def uploadLoop : List FileModel → Docs → Nat → Except (String × Docs) (Docs × Nat)
  | [], docs, processed => Except.ok (docs, processed)
  | f :: rest, docs, processed =>
    if !isSuffixB ".pdf".data (pyLower f.filename).data then
      Except.error (f.filename ++ " is not a PDF. Only PDF files are accepted.", docs)
    else if maxFileSize < f.size then
      Except.error (f.filename ++ " exceeds the 10MB size limit.", docs)
    else
      match extractText f.pdf with
      | (ExtractOut.ocrFailed, _) =>
        Except.error ("OCR failed for " ++ f.filename, docs)
      | (ExtractOut.ok text, _) =>
        if strFalsyStrip text then
          uploadLoop rest docs processed
        else
          uploadLoop rest (docsPut docs (pyLower f.filename) text) (processed + 1)

/-- The `/upload` handler `upload_pdf` (src/main.py lines 90-146): run the
per-file loop; on normal completion clear `CHAT_HISTORY` and report the
processed count, on an early return leave `CHAT_HISTORY` untouched and report
the per-file message. -/
def uploadPdf (files : List FileModel) (s : AskState) : String × AskState :=
  match uploadLoop files s.docs 0 with
  | Except.ok (docs2, processed) =>
    (toString processed ++ " file(s) processed successfully", ⟨docs2, []⟩)
  | Except.error (msg, docs2) => (msg, ⟨docs2, s.hist⟩)

/-- The `/clear` handler `clear_history` (src/main.py lines 59-63). -/
def clearHistory (s : AskState) : AskState := ⟨s.docs, []⟩

/-- The `/clear-all` handler `clear_all` (src/main.py lines 67-72). -/
def clearAllState (_ : AskState) : AskState := ⟨[], []⟩

/-- The `/delete/{filename}` handler `delete_file` (src/main.py lines 76-86). -/
def deleteFile (name : String) (s : AskState) : AskState :=
  let key := pyLower name
  if s.docs.any (fun p => p.1 == key) then ⟨docsRemove s.docs key, s.hist⟩ else s

/-- Requests that mutate the pipeline state. An `ask` carries the outcome the
external completion service would produce for that request. -/
inductive Op
  | ask (q : String) (reply : Except String String)
  | upload (files : List FileModel)
  | clear
  | clearAll
  | deleteF (name : String)

/-- State transition of one request. -/
def step (s : AskState) (o : Op) : AskState :=
  match o with
  | Op.ask q r => (askAi q r s).2
  | Op.upload fs => (uploadPdf fs s).2
  | Op.clear => clearHistory s
  | Op.clearAll => clearAllState s
  | Op.deleteF n => deleteFile n s

/-- The empty initial state of the process (src/main.py lines 35-36). -/
def initState : AskState := ⟨[], []⟩

/-- The state reached from the initial state by a sequence of requests. -/
def run (ops : List Op) : AskState := ops.foldl step initState

/-- The conversation-log invariant of §3 of the spec: once any turn exists,
position 0 is a system turn and no other turn has the system role. -/
def systemOnlyAtZero : List Turn → Prop
  | [] => True
  | x :: t => x.role = Role.system ∧ ∀ y ∈ t, y.role ≠ Role.system

/-- Concrete upload fixture: a small PDF with an embedded text layer. -/
def notesFile : FileModel :=
  ⟨"notes.pdf", 100, ⟨[some "Photosynthesis converts light to energy."], none, some []⟩⟩

/-- Concrete upload fixture: a small PDF with no text layer on which the OCR
path raises. -/
def badFile : FileModel := ⟨"bad.pdf", 100, ⟨[], none, none⟩⟩

/-! ## Helper lemmas -/

/-- Characterization of the boolean prefix test. -/
lemma isPrefixB_iff (n : List Char) : ∀ h : List Char,
    isPrefixB n h = true ↔ ∃ t, h = n ++ t := by
  induction n with
  | nil => intro h; simp [isPrefixB]
  | cons a as ih =>
    intro h
    cases h with
    | nil =>
      simp [isPrefixB]
    | cons b bs =>
      simp only [isPrefixB, Bool.and_eq_true, beq_iff_eq, ih, List.cons_append,
        List.cons.injEq]
      constructor
      · rintro ⟨rfl, t, rfl⟩
        exact ⟨t, rfl, rfl⟩
      · rintro ⟨t, rfl, rfl⟩
        exact ⟨rfl, t, rfl⟩

/-- Characterization of the boolean substring test: `substrB n h` holds exactly
when `h` decomposes as `pre ++ n ++ post`. -/
lemma substrB_iff (n : List Char) : ∀ h : List Char,
    substrB n h = true ↔ ∃ pre post, h = pre ++ n ++ post := by
  intro h
  induction h with
  | nil =>
    simp only [substrB, List.isEmpty_iff]
    constructor
    · rintro rfl
      exact ⟨[], [], rfl⟩
    · rintro ⟨pre, post, hp⟩
      rcases List.append_eq_nil.mp hp.symm with ⟨h1, h2⟩
      exact (List.append_eq_nil.mp h1).2
  | cons b bs ih =>
    simp only [substrB, Bool.or_eq_true, isPrefixB_iff, ih]
    constructor
    · rintro (⟨t, ht⟩ | ⟨pre, post, hp⟩)
      · exact ⟨[], t, by simpa using ht⟩
      · exact ⟨b :: pre, post, by simp [hp]⟩
    · rintro ⟨pre, post, hp⟩
      cases pre with
      | nil => exact Or.inl ⟨post, by simpa using hp⟩
      | cons c cs =>
        right
        rcases List.cons.injEq .. ▸ hp with ⟨rfl, h2⟩
        exact ⟨cs, post, h2⟩

/-! ## C5: combined study material -/

/-- C5. The combined study-material string equals the blank-line-separated
concatenation of all stored document texts in store iteration order, cut to
the first 12000 characters, and its length never exceeds 12000. -/
theorem combinedText_spec (d : Docs) :
    combinedText d = pyTake (String.intercalate "\n\n" (docsValues d)) 12000 ∧
    (combinedText d).length ≤ 12000 := by
  constructor
  · unfold combinedText
    split
    · rename_i hd
      rw [List.isEmpty_iff.mp hd]
      rfl
    · rfl
  · unfold combinedText
    split
    · simp [String.length]
    · show (List.take 12000 _).length ≤ 12000
      simp [List.length_take]

/-! ## C6: intent classification -/

/-- C6. A question routes to `Image` exactly when its lowercased text contains
some phrase of the fixed keyword set as a contiguous substring; otherwise it
routes to `Answer`. In particular "draw a neural network" routes to `Image`
and "what is a neural network" routes to `Answer`. -/
theorem classify_spec :
    (∀ q : String, classify q = Intent.Image ↔
      ∃ k ∈ imageKeywords, ∃ pre post, (pyLower q).data = pre ++ k.data ++ post) ∧
    classify "draw a neural network" = Intent.Image ∧
    classify "what is a neural network" = Intent.Answer := by
  refine ⟨fun q => ?_, by decide, by decide⟩
  unfold classify
  split
  · rename_i hq
    simp only [true_iff]
    rcases List.any_eq_true.mp hq with ⟨k, hk, hsub⟩
    exact ⟨k, hk, (substrB_iff k.data (pyLower q).data).mp hsub⟩
  · rename_i hq
    simp only [reduceCtorEq, false_iff]
    rintro ⟨k, hk, pre, post, hsplit⟩
    exact hq (List.any_eq_true.mpr
      ⟨k, hk, (substrB_iff k.data (pyLower q).data).mpr ⟨pre, post, hsplit⟩⟩)

/-- Witness for C6: the iff applied at a concrete question containing the
keyword "generate image". -/
theorem classify_spec_witness : classify "generate image of a cat" = Intent.Image :=
  (classify_spec.1 "generate image of a cat").mpr
    ⟨"generate image", by decide, [], " of a cat".data, by decide⟩

/-! ## C7: image requests leave the state untouched -/

/-- C7. On a question classified as an image request, `ask_ai` returns the
image URL built from the URL-encoded raw question immediately, and the state
(conversation log and document store) is returned unchanged. -/
theorem askAi_image (q : String) (reply : Except String String) (s : AskState)
    (h : classify q = Intent.Image) :
    askAi q reply s =
      (AskResult.image ("https://image.pollinations.ai/prompt/" ++ pyQuote q), s) := by
  simp [askAi, h]

/-- Witness for C7: "draw a flowchart of mitosis" yields the URL ending in
`prompt/draw%20a%20flowchart%20of%20mitosis` with the state unchanged. -/
theorem askAi_image_witness :
    classify "draw a flowchart of mitosis" = Intent.Image ∧
    askAi "draw a flowchart of mitosis" (Except.ok "x") ⟨[], []⟩ =
      (AskResult.image
        "https://image.pollinations.ai/prompt/draw%20a%20flowchart%20of%20mitosis",
       (⟨[], []⟩ : AskState)) := by
  refine ⟨by decide, ?_⟩
  rw [askAi_image "draw a flowchart of mitosis" (Except.ok "x") ⟨[], []⟩ (by decide)]
  decide

/-! ## C8: completion-service failures become answer strings -/

/-- C8. When the completion service raises on a non-image question, `ask_ai`
returns `{answer: "⚠️ Error: <message>"}`; the handler is a total function
into `AskResult`, so the failure is never propagated as a protocol-level
error. -/
theorem askAi_upstream_error (q e : String) (s : AskState)
    (h : classify q = Intent.Answer) :
    (askAi q (Except.error e) s).1 = AskResult.answer ("⚠️ Error: " ++ e) := by
  simp [askAi, h]

/-- Witness for C8 at a concrete question and error message. -/
theorem askAi_upstream_error_witness :
    classify "what is recursion" = Intent.Answer ∧
    (askAi "what is recursion" (Except.error "boom") ⟨[], []⟩).1 =
      AskResult.answer ("⚠️ Error: " ++ "boom") :=
  ⟨by decide, askAi_upstream_error "what is recursion" "boom" ⟨[], []⟩ (by decide)⟩

/-! ## C2: OCR fallback condition -/

/-- C2. The OCR path is entered exactly when the direct-extraction result is
empty or whitespace-only; when the direct result has non-whitespace text,
extraction returns it without consulting OCR; extraction fails only when the
OCR path was entered and OCR itself raised (a direct-path parse failure alone
is swallowed, never fatal); and a parse failure before any page is processed
leaves no direct text. -/
theorem extractText_spec (pages : List (Option String)) (failAt : Option Nat)
    (ocr : Option (List String)) :
    ((extractText ⟨pages, failAt, ocr⟩).2 = true ↔
      strFalsyStrip (directText ⟨pages, failAt, ocr⟩) = true) ∧
    (strFalsyStrip (directText ⟨pages, failAt, ocr⟩) = false →
      extractText ⟨pages, failAt, ocr⟩ =
        (ExtractOut.ok (directText ⟨pages, failAt, ocr⟩), false)) ∧
    ((extractText ⟨pages, failAt, ocr⟩).1 = ExtractOut.ocrFailed →
      ocr = none ∧ strFalsyStrip (directText ⟨pages, failAt, ocr⟩) = true) ∧
    (failAt = some 0 → directText ⟨pages, failAt, ocr⟩ = "") := by
  refine ⟨?_, ?_, ?_, ?_⟩
  · cases hs : strFalsyStrip (directText ⟨pages, failAt, ocr⟩) with
    | true => cases ocr <;> simp [extractText, hs]
    | false => simp [extractText, hs]
  · intro hs
    simp [extractText, hs]
  · intro hf
    cases hs : strFalsyStrip (directText ⟨pages, failAt, ocr⟩) with
    | true =>
      cases ocr with
      | none => exact ⟨rfl, rfl⟩
      | some ps => simp [extractText, hs] at hf
    | false => simp [extractText, hs] at hf
  · intro hf
    subst hf
    rfl

/-- Witness for C2: a one-page PDF with a text layer is extracted directly and
the OCR flag stays off. -/
theorem extractText_spec_witness :
    strFalsyStrip (directText ⟨[some "hello"], none, none⟩) = false ∧
    extractText ⟨[some "hello"], none, none⟩ = (ExtractOut.ok "hello\n", false) := by
  refine ⟨by decide, ?_⟩
  rw [(extractText_spec [some "hello"] none none).2.1 (by decide)]
  decide

/-! ## C1: retention policy of the conversation log -/

/-- Result of a trim is never longer than 21 turns. -/
lemma trimHist_length_le (l : List Turn) : (trimHist l).length ≤ 21 := by
  unfold trimHist lastN
  split
  · rename_i hl
    simp only [List.length_append, List.length_take, List.length_drop]
    omega
  · rename_i hl
    omega

/-- One request keeps the conversation log at 22 turns or fewer. -/
lemma step_hist_len (s : AskState) (o : Op) (hs : s.hist.length ≤ 22) :
    (step s o).hist.length ≤ 22 := by
  cases o with
  | ask q r =>
    show (askAi q r s).2.hist.length ≤ 22
    by_cases hc : classify q = Intent.Image
    · simp [askAi, hc, hs]
    · have h21 := trimHist_length_le
        (upsertSystem s.hist (systemPrompt (combinedText s.docs)) ++ [⟨Role.user, q⟩])
      cases r with
      | ok ans =>
        simp [askAi, hc]
        omega
      | error e =>
        simp [askAi, hc]
        omega
  | upload fs =>
    show (uploadPdf fs s).2.hist.length ≤ 22
    unfold uploadPdf
    split
    · simp
    · simpa using hs
  | clear => simp [step, clearHistory]
  | clearAll => simp [step, clearAllState]
  | deleteF n =>
    show (deleteFile n s).hist.length ≤ 22
    simp only [deleteFile]
    split
    · simpa using hs
    · exact hs

/-- The 22-turn bound holds along every run. -/
lemma run_hist_len : ∀ (ops : List Op) (s : AskState), s.hist.length ≤ 22 →
    (ops.foldl step s).hist.length ≤ 22 := by
  intro ops
  induction ops with
  | nil => exact fun s hs => hs
  | cons o os ih => exact fun s hs => ih (step s o) (step_hist_len s o hs)

/-- Counterexample to C1 as stated: after eleven answered `/ask` requests the
conversation log holds 22 turns, exceeding the claimed bound of 21, because
the trim is not applied after the assistant-reply append. -/
theorem hist_length_21_cex :
    21 < (run (List.replicate 11 (Op.ask "hi" (Except.ok "ok")))).hist.length := by
  decide

/-- C1 (amended). Along every sequence of requests the conversation log never
exceeds 22 turns (the trim runs only after the user append, so the
assistant-reply append can reach 22); whenever the log exceeds 21 turns at the
trim point, trimming keeps exactly the turn at position 0 plus the most recent
20 dialogue turns in their original relative order. -/
theorem hist_length_invariant :
    (∀ ops : List Op, (run ops).hist.length ≤ 22) ∧
    (∀ (x : Turn) (t : List Turn), 21 < (x :: t).length →
      trimHist (x :: t) = x :: t.drop (t.length - 20) ∧
      (t.drop (t.length - 20)).length = 20) := by
  constructor
  · intro ops
    exact run_hist_len ops initState (by simp [initState])
  · intro x t ht
    have htl : 21 ≤ t.length := by
      simp only [List.length_cons] at ht
      omega
    constructor
    · unfold trimHist lastN
      rw [if_pos ht]
      have h1 : (x :: t).length - 20 = (t.length - 20) + 1 := by
        simp only [List.length_cons]
        omega
      rw [h1]
      simp
    · rw [List.length_drop]
      omega

/-- Witness for C1 (amended): the bound at the empty run, and the trim shape
on a concrete 22-turn log. -/
theorem hist_length_invariant_witness :
    (run []).hist.length ≤ 22 ∧
    (trimHist (⟨Role.system, "p"⟩ :: List.replicate 21 ⟨Role.user, "u"⟩) =
      ⟨Role.system, "p"⟩ ::
        (List.replicate 21 (⟨Role.user, "u"⟩ : Turn)).drop
          ((List.replicate 21 (⟨Role.user, "u"⟩ : Turn)).length - 20) ∧
     ((List.replicate 21 (⟨Role.user, "u"⟩ : Turn)).drop
        ((List.replicate 21 (⟨Role.user, "u"⟩ : Turn)).length - 20)).length = 20) :=
  ⟨hist_length_invariant.1 [],
   hist_length_invariant.2 ⟨Role.system, "p"⟩ (List.replicate 21 ⟨Role.user, "u"⟩)
     (by decide)⟩

/-! ## C9: the system turn sits alone at position 0 -/

/-- Upserting the system prompt always yields a cons cell whose head is the
system turn. -/
lemma upsertSystem_eq_cons (h : List Turn) (p : String) :
    upsertSystem h p = ⟨Role.system, p⟩ :: h.tail := by
  cases h <;> rfl

/-- Trimming a cons cell keeps its head. -/
lemma trimHist_cons (x : Turn) (t : List Turn) : ∃ t2, trimHist (x :: t) = x :: t2 := by
  unfold trimHist lastN
  split
  · rename_i hl
    have h2 : (x :: t).length - 20 = (t.length - 20) + 1 := by
      simp only [List.length_cons] at hl ⊢
      omega
    rw [h2]
    exact ⟨t.drop (t.length - 20), rfl⟩
  · exact ⟨t, rfl⟩

/-- Trimming never empties a non-empty log. -/
lemma trimHist_ne_nil (h : List Turn) (hn : h ≠ []) : trimHist h ≠ [] := by
  cases h with
  | nil => exact absurd rfl hn
  | cons x t =>
    rcases trimHist_cons x t with ⟨t2, ht2⟩
    rw [ht2]
    simp

/-- The upsert preserves the system-at-zero invariant. -/
lemma soz_upsertSystem (h : List Turn) (p : String) (hs : systemOnlyAtZero h) :
    systemOnlyAtZero (upsertSystem h p) := by
  cases h with
  | nil => exact ⟨rfl, by simp⟩
  | cons x t => exact ⟨rfl, hs.2⟩

/-- Appending a non-system turn to a non-empty log preserves the invariant. -/
lemma soz_append (h : List Turn) (u : Turn) (hn : h ≠ []) (hu : u.role ≠ Role.system)
    (hs : systemOnlyAtZero h) : systemOnlyAtZero (h ++ [u]) := by
  cases h with
  | nil => exact absurd rfl hn
  | cons x t =>
    refine ⟨hs.1, ?_⟩
    intro y hy
    rcases List.mem_append.mp hy with h1 | h2
    · exact hs.2 y h1
    · rw [List.mem_singleton.mp h2]
      exact hu

/-- Trimming preserves the invariant: the kept turns are the head plus a
suffix of the tail. -/
lemma soz_trimHist (h : List Turn) (hs : systemOnlyAtZero h) :
    systemOnlyAtZero (trimHist h) := by
  cases h with
  | nil => exact trivial
  | cons x t =>
    unfold trimHist lastN
    split
    · rename_i hl
      have h2 : (x :: t).length - 20 = (t.length - 20) + 1 := by
        simp only [List.length_cons] at hl ⊢
        omega
      rw [h2]
      show systemOnlyAtZero (x :: t.drop (t.length - 20))
      exact ⟨hs.1, fun y hy => hs.2 y (List.mem_of_mem_drop hy)⟩
    · exact hs

/-- The upsert-append-trim prefix of a non-image `/ask` preserves the
invariant. -/
lemma soz_afterUserTrim (h : List Turn) (p q : String) (hs : systemOnlyAtZero h) :
    systemOnlyAtZero (trimHist (upsertSystem h p ++ [⟨Role.user, q⟩])) := by
  apply soz_trimHist
  rw [upsertSystem_eq_cons]
  apply soz_append
  · simp
  · intro hr
    exact Role.noConfusion hr
  · refine ⟨rfl, ?_⟩
    intro y hy
    cases h with
    | nil => simp at hy
    | cons x t => exact hs.2 y hy

/-- The `/ask` handler preserves the invariant. -/
lemma soz_askAi (q : String) (r : Except String String) (s : AskState)
    (hs : systemOnlyAtZero s.hist) : systemOnlyAtZero (askAi q r s).2.hist := by
  by_cases hc : classify q = Intent.Image
  · simpa [askAi, hc] using hs
  · have h3 := soz_afterUserTrim s.hist (systemPrompt (combinedText s.docs)) q hs
    cases r with
    | ok ans =>
      simp only [askAi, hc, if_false]
      show systemOnlyAtZero
        (trimHist (upsertSystem s.hist (systemPrompt (combinedText s.docs)) ++
          [⟨Role.user, q⟩]) ++ [⟨Role.assistant, ans⟩])
      apply soz_append _ _ (trimHist_ne_nil _ (by simp)) _ h3
      intro hr
      exact Role.noConfusion hr
    | error e =>
      simp only [askAi, hc, if_false]
      exact h3

/-- Every request preserves the invariant. -/
lemma soz_step (s : AskState) (o : Op) (hs : systemOnlyAtZero s.hist) :
    systemOnlyAtZero (step s o).hist := by
  cases o with
  | ask q r => exact soz_askAi q r s hs
  | upload fs =>
    show systemOnlyAtZero (uploadPdf fs s).2.hist
    unfold uploadPdf
    split
    · exact trivial
    · exact hs
  | clear => exact trivial
  | clearAll => exact trivial
  | deleteF n =>
    show systemOnlyAtZero (deleteFile n s).hist
    simp only [deleteFile]
    split
    · exact hs
    · exact hs

/-- The invariant holds along every run from a given good state. -/
lemma soz_run_aux : ∀ (ops : List Op) (s : AskState), systemOnlyAtZero s.hist →
    systemOnlyAtZero (ops.foldl step s).hist := by
  intro ops
  induction ops with
  | nil => exact fun _ hs => hs
  | cons o os ih => exact fun s hs => ih (step s o) (soz_step s o hs)

/-- C9. In every reachable state, once the conversation log is non-empty its
position 0 holds the unique system turn; the upsert inserts a system turn
into an empty log, replaces position 0 of a non-empty one (never appending a
second system turn), and trimming preserves the invariant. -/
theorem system_turn_invariant :
    (∀ ops : List Op, systemOnlyAtZero (run ops).hist) ∧
    (∀ (h : List Turn) (p : String), systemOnlyAtZero h →
      systemOnlyAtZero (upsertSystem h p)) ∧
    (∀ h : List Turn, systemOnlyAtZero h → systemOnlyAtZero (trimHist h)) ∧
    (∀ p : String, upsertSystem [] p = [⟨Role.system, p⟩]) ∧
    (∀ (p : String) (x : Turn) (t : List Turn),
      upsertSystem (x :: t) p = ⟨Role.system, p⟩ :: t) :=
  ⟨fun ops => soz_run_aux ops initState trivial,
   fun h p hs => soz_upsertSystem h p hs,
   fun h hs => soz_trimHist h hs,
   fun _ => rfl,
   fun _ _ _ => rfl⟩

/-- Witness for C9: the invariant evaluated on the state after one concrete
answered request. -/
theorem system_turn_invariant_witness :
    systemOnlyAtZero (run [Op.ask "hi" (Except.ok "a")]).hist :=
  system_turn_invariant.1 [Op.ask "hi" (Except.ok "a")]

/-! ## C10: no rollback on completion failure -/

/-- Trimming preserves the first turn of the log. -/
lemma trimHist_head (h : List Turn) : (trimHist h).head? = h.head? := by
  cases h with
  | nil => rfl
  | cons x t =>
    rcases trimHist_cons x t with ⟨t2, ht2⟩
    rw [ht2]
    rfl

/-- Trimming preserves the most recent turn of the log. -/
lemma trimHist_getLast (h : List Turn) :
    (trimHist h).getLast? = h.getLast? := by
  unfold trimHist lastN
  split
  · rename_i hl
    have hd : h.drop (h.length - 20) ≠ [] := by
      intro hc
      have hlen := congrArg List.length hc
      simp only [List.length_drop, List.length_nil] at hlen
      omega
    rw [List.getLast?_append_of_ne_nil _ hd]
    conv_rhs => rw [← List.take_append_drop (h.length - 20) h]
    rw [List.getLast?_append_of_ne_nil _ hd]
  · rfl

/-- C10. When the completion service fails on a non-image question, the
mutations made before the call are kept: the new state is exactly the log
after the system-turn refresh, the user append and the trim — so the
refreshed system turn is still at position 0, the user turn is still the most
recent turn, and no assistant turn was appended for the request. -/
theorem askAi_error_no_rollback (q e : String) (s : AskState)
    (h : classify q = Intent.Answer) :
    askAi q (Except.error e) s =
      (AskResult.answer ("⚠️ Error: " ++ e),
       ⟨s.docs,
        trimHist (upsertSystem s.hist (systemPrompt (combinedText s.docs)) ++
          [⟨Role.user, q⟩])⟩) ∧
    (askAi q (Except.error e) s).2.hist.head? =
      some ⟨Role.system, systemPrompt (combinedText s.docs)⟩ ∧
    (askAi q (Except.error e) s).2.hist.getLast? = some ⟨Role.user, q⟩ := by
  have hni : classify q ≠ Intent.Image := by
    rw [h]
    exact fun hc => Intent.noConfusion hc
  have h1 : (askAi q (Except.error e) s).2.hist =
      trimHist (upsertSystem s.hist (systemPrompt (combinedText s.docs)) ++
        [⟨Role.user, q⟩]) := by
    simp [askAi, hni]
  refine ⟨by simp [askAi, hni], ?_, ?_⟩
  · rw [h1, trimHist_head, upsertSystem_eq_cons]
    rfl
  · rw [h1, trimHist_getLast]
    exact List.getLast?_concat _

/-- Witness for C10 on a concrete failing request against the empty state. -/
theorem askAi_error_no_rollback_witness :
    classify "what is photosynthesis" = Intent.Answer ∧
    (askAi "what is photosynthesis" (Except.error "down") ⟨[], []⟩).2.hist.getLast? =
      some ⟨Role.user, "what is photosynthesis"⟩ :=
  ⟨by decide,
   (askAi_error_no_rollback "what is photosynthesis" "down" ⟨[], []⟩ (by decide)).2.2⟩

/-! ## C3: OCR failure handling in an upload batch -/

/-- Counterexample to C3 as stated: in the batch `[badFile, notesFile]` the
OCR failure on the first file makes the handler return at once; the second
file, although extractable, is never processed and the store stays empty. -/
theorem ocr_abort_batch_cex :
    uploadPdf [badFile, notesFile] ⟨[], []⟩ = ("OCR failed for bad.pdf", ⟨[], []⟩) ∧
    (uploadPdf [badFile, notesFile] ⟨[], []⟩).2.docs = [] :=
  ⟨rfl, rfl⟩

/-- The per-file loop processes an appended batch sequentially: the second
part runs from the store and count the first part left behind, and an early
return in the first part short-circuits. -/
lemma uploadLoop_append (pre post : List FileModel) : ∀ (docs : Docs) (n : Nat),
    uploadLoop (pre ++ post) docs n =
      match uploadLoop pre docs n with
      | Except.ok (d, m) => uploadLoop post d m
      | Except.error e => Except.error e := by
  induction pre with
  | nil => intro docs n; rfl
  | cons f fs ih =>
    intro docs n
    cases hpdf : isSuffixB ".pdf".data (pyLower f.filename).data with
    | false => simp [uploadLoop, hpdf]
    | true =>
      by_cases hsize : maxFileSize < f.size
      · simp [uploadLoop, hpdf, hsize]
      · cases hext : extractText f.pdf with
        | mk out flag =>
          cases out with
          | ocrFailed => simp [uploadLoop, hpdf, hsize, hext]
          | ok text =>
            cases hws : strFalsyStrip text with
            | true =>
              simp only [List.cons_append, uploadLoop, hpdf, Bool.not_true,
                Bool.false_eq_true, if_false, hsize, hext, hws, if_true]
              exact ih docs n
            | false =>
              simp only [List.cons_append, uploadLoop, hpdf, Bool.not_true,
                Bool.false_eq_true, if_false, hsize, hext, hws, if_true]
              exact ih (docsPut docs (pyLower f.filename) text) (n + 1)

/-- An OCR failure makes the loop return at once with the per-file message,
whatever store and count the earlier files left behind. -/
lemma uploadLoop_ocr_error (f : FileModel) (rest : List FileModel) (docs : Docs)
    (n : Nat)
    (h1 : isSuffixB ".pdf".data (pyLower f.filename).data = true)
    (h2 : f.size ≤ maxFileSize)
    (h3 : strFalsyStrip (directText f.pdf) = true)
    (h4 : f.pdf.ocrPages = none) :
    uploadLoop (f :: rest) docs n =
      Except.error ("OCR failed for " ++ f.filename, docs) := by
  have he : extractText f.pdf = (ExtractOut.ocrFailed, true) := by
    simp [extractText, h3, h4]
  have h2n : ¬ maxFileSize < f.size := Nat.not_lt.mpr h2
  simp [uploadLoop, h1, h2n, he]

/-- C3 (amended). An OCR failure on any file of an upload batch produces the
user-visible per-file message naming that file, but aborts the batch: earlier
files that the loop processed without an early return remain stored, the
failing file and the remaining files are not processed (the response does not
depend on the remaining files), and the chat history is left untouched. -/
theorem ocr_failure_aborts (s : AskState) (pre : List FileModel) (f : FileModel)
    (rest : List FileModel) (docs1 : Docs) (n1 : Nat)
    (hpre : uploadLoop pre s.docs 0 = Except.ok (docs1, n1))
    (h1 : isSuffixB ".pdf".data (pyLower f.filename).data = true)
    (h2 : f.size ≤ maxFileSize)
    (h3 : strFalsyStrip (directText f.pdf) = true)
    (h4 : f.pdf.ocrPages = none) :
    uploadPdf (pre ++ f :: rest) s =
      ("OCR failed for " ++ f.filename, ⟨docs1, s.hist⟩) := by
  have hl : uploadLoop (pre ++ f :: rest) s.docs 0 =
      Except.error ("OCR failed for " ++ f.filename, docs1) := by
    rw [uploadLoop_append, hpre]
    exact uploadLoop_ocr_error f rest docs1 n1 h1 h2 h3 h4
  unfold uploadPdf
  rw [hl]

/-- Witness for C3 (amended): a three-file batch whose middle file fails OCR,
run against a state with a non-empty chat history; the first file stays
stored, the third is never processed, and the history survives untouched. -/
theorem ocr_failure_aborts_witness :
    uploadLoop [notesFile] ([] : Docs) 0 =
      Except.ok ([("notes.pdf", "Photosynthesis converts light to energy.\n")], 1) ∧
    isSuffixB ".pdf".data (pyLower badFile.filename).data = true ∧
    badFile.size ≤ maxFileSize ∧
    strFalsyStrip (directText badFile.pdf) = true ∧
    badFile.pdf.ocrPages = none ∧
    uploadPdf ([notesFile] ++ badFile :: [notesFile]) ⟨[], [⟨Role.user, "old"⟩]⟩ =
      ("OCR failed for " ++ badFile.filename,
       ⟨[("notes.pdf", "Photosynthesis converts light to energy.\n")],
        [⟨Role.user, "old"⟩]⟩) :=
  ⟨rfl, by decide, by decide, by decide, rfl,
   ocr_failure_aborts ⟨[], [⟨Role.user, "old"⟩]⟩ [notesFile] badFile [notesFile]
     [("notes.pdf", "Photosynthesis converts light to energy.\n")] 1 rfl
     (by decide) (by decide) (by decide) rfl⟩

/-! ## C4: which requests empty the conversation log -/

/-- A `/ask` request never empties a non-empty conversation log. -/
lemma askAi_hist_ne_nil (q : String) (r : Except String String) (s : AskState)
    (hs : s.hist ≠ []) : (askAi q r s).2.hist ≠ [] := by
  by_cases hc : classify q = Intent.Image
  · simpa [askAi, hc] using hs
  · cases r with
    | ok ans => simp [askAi, hc]
    | error e =>
      simp only [askAi, hc, if_false]
      exact trimHist_ne_nil _ (by simp)

/-- Counterexample to C4 as stated: a successful upload (an operation that is
neither `/clear` nor `/clear-all`) empties a non-empty conversation log. -/
theorem upload_clears_hist_cex :
    (run [Op.ask "hi" (Except.ok "yo")]).hist.length = 3 ∧
    (run [Op.ask "hi" (Except.ok "yo"), Op.upload [notesFile]]).hist = [] :=
  ⟨rfl, rfl⟩

/-- C4 (amended). From a state with a non-empty conversation log, a request
empties the log exactly when it is `/clear`, `/clear-all`, or an `/upload`
whose per-file loop runs to completion (uploads that return early leave the
log untouched; `/ask` and `/delete` never empty it). -/
theorem hist_empty_transitions (s : AskState) (o : Op) (hs : s.hist ≠ []) :
    (step s o).hist = [] ↔
      o = Op.clear ∨ o = Op.clearAll ∨
      ∃ fs out, o = Op.upload fs ∧ uploadLoop fs s.docs 0 = Except.ok out := by
  cases o with
  | ask q r =>
    simp only [step]
    constructor
    · intro hempty
      exact absurd hempty (askAi_hist_ne_nil q r s hs)
    · rintro (hc | hc | ⟨fs, out, hc, _⟩) <;> exact Op.noConfusion hc
  | upload fs =>
    show (uploadPdf fs s).2.hist = [] ↔ _
    unfold uploadPdf
    cases hl : uploadLoop fs s.docs 0 with
    | ok out =>
      cases out with
      | mk docs2 processed =>
        exact iff_of_true rfl (Or.inr (Or.inr ⟨fs, (docs2, processed), rfl, hl⟩))
    | error out =>
      cases out with
      | mk msg docs2 =>
        refine iff_of_false hs ?_
        rintro (hc | hc | ⟨fs2, out2, hc, hok⟩)
        · exact Op.noConfusion hc
        · exact Op.noConfusion hc
        · injection hc with hfs
          subst hfs
          rw [hl] at hok
          exact Except.noConfusion hok
  | clear =>
    exact iff_of_true rfl (Or.inl rfl)
  | clearAll =>
    exact iff_of_true rfl (Or.inr (Or.inl rfl))
  | deleteF n =>
    have hh : (step s (Op.deleteF n)).hist = s.hist := by
      show (deleteFile n s).hist = s.hist
      simp only [deleteFile]
      split <;> rfl
    rw [hh]
    refine iff_of_false hs ?_
    rintro (hc | hc | ⟨fs2, out2, hc, _⟩) <;> exact Op.noConfusion hc

/-- Witness for C4 (amended) at a concrete non-empty state and the `/clear`
request. -/
theorem hist_empty_transitions_witness :
    ([⟨Role.user, "x"⟩] : List Turn) ≠ [] ∧
    ((step ⟨[], [⟨Role.user, "x"⟩]⟩ Op.clear).hist = [] ↔
      Op.clear = Op.clear ∨ Op.clear = Op.clearAll ∨
      ∃ fs out, Op.clear = Op.upload fs ∧ uploadLoop fs ([] : Docs) 0 = Except.ok out) :=
  ⟨by simp, hist_empty_transitions ⟨[], [⟨Role.user, "x"⟩]⟩ Op.clear (by simp)⟩

end StudyCompanion
